import Mathlib

/-!
The six `printf` probe programs of bsides--ctf.

Shallow embedding of `try_solutions.c`, `try_formats.c`, `verify.c`,
`debug_printf.c`, `experiment.c` and `test_arithmetic.c`.

* A byte is a `Nat` (reduced `% 256` where it is loaded as a `char`); a C
  string is the list of its bytes in front of the terminating NUL.
* `argv` is the list of argument strings, `argc` its length; `argv[i]` past
  the end is the null pointer (`none`).
* Standard output is passed explicitly: every `printf` takes the stream
  written so far and returns the stream after the call.
* Whether plain `char` is signed is implementation-defined (signed on
  x86-64 Linux, unsigned on ARM Linux); it is the parameter `charSigned`.
* `printf` follows ISO C for the directives the programs use (`%%`, `%c`,
  `%d`, `%x`, `%o`, `%s`, a field width, a precision); flags and length
  modifiers are not covered. Two directives that ISO C leaves undefined are
  rendered as glibc renders them: `%s` of a null pointer writes `(null)`, and
  a precision on `%c` is ignored.
* A program returns `none` where C leaves the behaviour undefined or where
  the model of `printf` does not cover the directive; otherwise it returns
  the final stream and the exit status.
-/

namespace BsidesCtf

/-! ## C values -/

/-- Bytes of an ASCII literal. -/
def bytes (s : String) : List Nat := s.toList.map Char.toNat

/-- The C string stored in `mem`: the bytes in front of the first NUL. -/
def cstr (mem : List Nat) : List Nat := mem.takeWhile (fun b => b != 0)

/-- The expression `s[0]` on a C string: its first byte, or the terminating NUL
when the string is empty. -/
def byteAt0 (s : List Nat) : Nat := (cstr s).headD 0

/-- Value of the `char` object holding byte `b`. -/
def loadChar (charSigned : Bool) (b : Nat) : Int :=
  if charSigned && decide (128 ≤ b % 256) then ((b % 256 : Nat) : Int) - 256
  else ((b % 256 : Nat) : Int)

/-- Conversion of an `int` value to `char` (as in `char c = 'a';`). -/
def intToChar (charSigned : Bool) (v : Int) : Int :=
  loadChar charSigned (v % 256).toNat

/-- The `int` subtraction `a - b`; overflow of the 32-bit `int` is undefined
behaviour. -/
def int_sub (a b : Int) : Option Int :=
  if -2147483648 ≤ a - b ∧ a - b ≤ 2147483647 then some (a - b) else none

/-! ## printf -/

/-- An argument passed through the variadic part of `printf`, after the default
promotions: an `int`, or a `char *` (`none` is the null pointer). -/
inductive Arg where
  | int (v : Int)
  | str (p : Option (List Nat))

/-- Right-justify `field` in `width` columns with spaces (no flag is used). -/
def pad (width : Nat) (field : List Nat) : List Nat :=
  List.replicate (width - field.length) 32 ++ field

/-- Digits of `n` in `base`, at least `prec` of them; no digit at all for
value 0 with precision 0. -/
def digits (base : Nat) (prec : Option Nat) (n : Nat) : List Nat :=
  match prec with
  | none => (Nat.toDigits base n).map Char.toNat
  | some p =>
    if n = 0 ∧ p = 0 then []
    else
      let ds := (Nat.toDigits base n).map Char.toNat
      List.replicate (p - ds.length) 48 ++ ds

/-- The `%d` conversion of an `int`. -/
def fmt_d (prec : Option Nat) (v : Int) : List Nat :=
  if v < 0 then 45 :: digits 10 prec (-v).toNat else digits 10 prec v.toNat

/-- The `%x` and `%o` conversions: the argument read as `unsigned int`. -/
def fmt_u (base : Nat) (prec : Option Nat) (v : Int) : List Nat :=
  digits base prec (v % 4294967296).toNat

/-- The `%c` conversion: the `int` argument converted to `unsigned char`. -/
def fmt_c (v : Int) : Nat := (v % 256).toNat

/-- The `%s` conversion: the string, cut at the precision. A null pointer is
written as `(null)` (glibc; only when the precision leaves room for it). -/
def fmt_s (prec : Option Nat) (p : Option (List Nat)) : List Nat :=
  match p, prec with
  | some s, none => cstr s
  | some s, some n => (cstr s).take n
  | none, none => bytes "(null)"
  | none, some n => if 6 ≤ n then bytes "(null)" else []

/-- One conversion specification with field width `width` and precision `prec`,
ended by the conversion character `conv`: the bytes it writes and the
arguments left. The precision of `%c` is ignored (glibc). -/
def convert (conv : Char) (width : Nat) (prec : Option Nat) (args : List Arg) :
    Option (List Nat × List Arg) :=
  if conv = '%' then some ([37], args)
  else
    match args with
    | Arg.int v :: rest =>
      if conv = 'c' then some (pad width [fmt_c v], rest)
      else if conv = 'd' then some (pad width (fmt_d prec v), rest)
      else if conv = 'x' then some (pad width (fmt_u 16 prec v), rest)
      else if conv = 'o' then some (pad width (fmt_u 8 prec v), rest)
      else none
    | Arg.str p :: rest =>
      if conv = 's' then some (pad width (fmt_s prec p), rest) else none
    | [] => none

/-- Where the scan of a format string stands. -/
inductive Scan where
  /-- Copying ordinary characters. -/
  | text
  /-- After the percent sign, reading the field width. -/
  | width (w : Nat)
  /-- After the period, reading the precision. -/
  | prec (w p : Nat)

/-- Value of a decimal digit character. -/
def digitVal (c : Char) : Nat := c.toNat - 48

/-- The formatting loop of `printf`: scans `fmt` one character at a time and
appends what it writes to `stdout`. It fails on a directive that is cut short,
has a flag (the `0` flag included) or an unknown conversion character, or finds
no argument of the right type. -/
def vfprintf : Scan → List Char → List Arg → List Nat → Option (List Nat)
  | Scan.text, [], _, stdout => some stdout
  | _, [], _, _ => none
  | Scan.text, c :: fmt, args, stdout =>
    if c = '%' then vfprintf (Scan.width 0) fmt args stdout
    else vfprintf Scan.text fmt args (stdout ++ [c.toNat])
  | Scan.width w, c :: fmt, args, stdout =>
    if c = '0' ∧ w = 0 then none
    else if c.isDigit then vfprintf (Scan.width (10 * w + digitVal c)) fmt args stdout
    else if c = '.' then vfprintf (Scan.prec w 0) fmt args stdout
    else
      match convert c w none args with
      | some (field, rest) => vfprintf Scan.text fmt rest (stdout ++ field)
      | none => none
  | Scan.prec w p, c :: fmt, args, stdout =>
    if c.isDigit then vfprintf (Scan.prec w (10 * p + digitVal c)) fmt args stdout
    else
      match convert c w (some p) args with
      | some (field, rest) => vfprintf Scan.text fmt rest (stdout ++ field)
      | none => none

/-- The call `printf(fmt, args...)` on the stream `stdout`. -/
def printf (fmt : String) (args : List Arg) (stdout : List Nat) : Option (List Nat) :=
  vfprintf Scan.text fmt.toList args stdout

/-! ## The programs -/

/-- The count `argc` of a command line. -/
def argc (argv : List (List Nat)) : Nat := argv.length

/-- The `main` of `try_solutions.c`. -/
def try_solutions (charSigned : Bool) (argv : List (List Nat)) (stdout : List Nat) :
    Option (List Nat × Int) :=
  if argc argv < 2 then do
    let stdout ← printf "Usage: %s <char>\n" [Arg.str argv[0]?] stdout
    pure (stdout, 1)
  else do
    let c := loadChar charSigned (byteAt0 (← argv[1]?))
    let stdout ← printf "Testing with input: %c (ASCII %d)\n" [Arg.int c, Arg.int c] stdout
    let stdout ← printf "Target output: %c (ASCII %d)\n"
      [Arg.int (← int_sub c 32), Arg.int (← int_sub c 32)] stdout
    let stdout ← printf "%%c: " [] stdout
    let stdout ← printf "%c" [Arg.int c] stdout
    let stdout ← printf "\n" [] stdout
    pure (stdout, 0)

/-- The `main` of `try_formats.c`. -/
def try_formats (charSigned : Bool) (argv : List (List Nat)) (stdout : List Nat) :
    Option (List Nat × Int) :=
  if argc argv < 2 then pure (stdout, 1)
  else do
    let c := loadChar charSigned (byteAt0 (← argv[1]?))
    let stdout ← printf "Input: %c\n" [Arg.int c] stdout
    let stdout ← printf "%%c: " [] stdout
    let stdout ← printf "%c" [Arg.int c] stdout
    let stdout ← printf "\n" [] stdout
    let stdout ← printf "%%d: " [] stdout
    let stdout ← printf "%d" [Arg.int c] stdout
    let stdout ← printf "\n" [] stdout
    let stdout ← printf "Target: %c\n" [Arg.int (← int_sub c 32)] stdout
    pure (stdout, 0)

/-- The `main` of `verify.c`. -/
def verify (charSigned : Bool) (argv : List (List Nat)) (stdout : List Nat) :
    Option (List Nat × Int) :=
  if argc argv < 2 then do
    let stdout ← printf "Need argument\n" [] stdout
    pure (stdout, 1)
  else do
    let stdout ← printf "argv[1] = %s\n" [Arg.str argv[1]?] stdout
    let stdout ← printf "argv[1][0] = %c\n"
      [Arg.int (loadChar charSigned (byteAt0 (← argv[1]?)))] stdout
    let stdout ← printf "argv[1][0] as int = %d\n"
      [Arg.int (loadChar charSigned (byteAt0 (← argv[1]?)))] stdout
    pure (stdout, 0)

/-- The `main` of `debug_printf.c`; it takes no parameter, the command line is
not read. The array `test_chars` is never used. -/
def debug_printf (charSigned : Bool) (_argv : List (List Nat)) (stdout : List Nat) :
    Option (List Nat × Int) := do
  let stdout ← printf "Testing character 'a' (ASCII 97):\n" [] stdout
  let c := intToChar charSigned 97
  let stdout ← printf "%%c: %c\n" [Arg.int c] stdout
  let stdout ← printf "%%d: %d\n" [Arg.int c] stdout
  let stdout ← printf "%%x: %x\n" [Arg.int c] stdout
  let stdout ← printf "%%o: %o\n" [Arg.int c] stdout
  let stdout ← printf "c-32 as char: %c\n" [Arg.int (← int_sub c 32)] stdout
  let stdout ← printf "c-32 as int: %d\n" [Arg.int (← int_sub c 32)] stdout
  pure (stdout, 0)

/-- The `main` of `experiment.c`; it takes no parameter. -/
def experiment (charSigned : Bool) (_argv : List (List Nat)) (stdout : List Nat) :
    Option (List Nat × Int) := do
  let c := intToChar charSigned 97
  let stdout ← printf "Standard: %c\n" [Arg.int c] stdout
  let stdout ← printf "As int: %d\n" [Arg.int c] stdout
  let stdout ← printf "With arithmetic: %c\n" [Arg.int (← int_sub c 32)] stdout
  let stdout ← printf "Test format: %c\n" [Arg.int c] stdout
  pure (stdout, 0)

/-- The `main` of `test_arithmetic.c`; it takes no parameter. -/
def test_arithmetic (charSigned : Bool) (_argv : List (List Nat)) (stdout : List Nat) :
    Option (List Nat × Int) := do
  let c := intToChar charSigned 97
  let stdout ← printf "Original: %c (%d)\n" [Arg.int c, Arg.int c] stdout
  let stdout ← printf "With width: %5c\n" [Arg.int c] stdout
  let stdout ← printf "With precision: %.1c\n" [Arg.int c] stdout
  let stdout ← printf "As char: %c\n" [Arg.int c] stdout
  let stdout ← printf "As int: %d\n" [Arg.int c] stdout
  let stdout ← printf "Target: %c (%d)\n"
    [Arg.int (← int_sub c 32), Arg.int (← int_sub c 32)] stdout
  pure (stdout, 0)

/-- The six programs of the repository. -/
inductive Program where
  | try_solutions | try_formats | verify | debug_printf | experiment | test_arithmetic
  deriving DecidableEq, Repr

/-- One run of a program on a command line, from the stream `stdout`. -/
def run (p : Program) (charSigned : Bool) (argv : List (List Nat)) (stdout : List Nat) :
    Option (List Nat × Int) :=
  match p with
  | Program.try_solutions => try_solutions charSigned argv stdout
  | Program.try_formats => try_formats charSigned argv stdout
  | Program.verify => verify charSigned argv stdout
  | Program.debug_printf => debug_printf charSigned argv stdout
  | Program.experiment => experiment charSigned argv stdout
  | Program.test_arithmetic => test_arithmetic charSigned argv stdout

/-! ## The formatting loop -/

/-- What a call appends does not depend on what the stream already holds. -/
theorem vfprintf_append (fmt : List Char) :
    ∀ (st : Scan) (args : List Arg) (stdout : List Nat),
      vfprintf st fmt args stdout = (vfprintf st fmt args []).map (fun w => stdout ++ w) := by
  induction fmt with
  | nil =>
    intro st args stdout
    cases st <;> simp [vfprintf]
  | cons c fmt ih =>
    intro st args stdout
    cases st with
    | text =>
      simp only [vfprintf]
      split
      · exact ih _ _ _
      · rw [ih _ _ (stdout ++ [c.toNat]), ih _ _ ([] ++ [c.toNat])]
        simp [Option.map_map, Function.comp_def]
    | width w =>
      simp only [vfprintf]
      split
      · rfl
      · split
        · exact ih _ _ _
        · split
          · exact ih _ _ _
          · cases hc : convert c w none args with
            | none => simp
            | some r =>
              obtain ⟨field, rest⟩ := r
              simp only []
              rw [ih _ _ (stdout ++ field), ih _ _ ([] ++ field)]
              simp [Option.map_map, Function.comp_def]
    | prec w p =>
      simp only [vfprintf]
      split
      · exact ih _ _ _
      · cases hc : convert c w (some p) args with
        | none => simp
        | some r =>
          obtain ⟨field, rest⟩ := r
          simp only []
          rw [ih _ _ (stdout ++ field), ih _ _ ([] ++ field)]
          simp [Option.map_map, Function.comp_def]

/-! ## Values -/

theorem loadChar_range (cs : Bool) (b : Nat) :
    -128 ≤ loadChar cs b ∧ loadChar cs b ≤ 255 := by
  unfold loadChar
  split <;> rename_i h
  · simp only [Bool.and_eq_true, decide_eq_true_eq] at h
    omega
  · omega

theorem int_sub_loadChar (cs : Bool) (b : Nat) :
    int_sub (loadChar cs b) 32 = some (loadChar cs b - 32) := by
  have h := loadChar_range cs b
  unfold int_sub
  rw [if_pos]
  omega

theorem fmt_c_loadChar (cs : Bool) (b : Nat) : fmt_c (loadChar cs b) = b % 256 := by
  unfold fmt_c loadChar
  split <;> omega

theorem intToChar_a (cs : Bool) : intToChar cs 97 = 97 := by
  cases cs <;> decide

theorem digits_eq (n : Nat) : digits 10 none n = bytes (toString n) := by
  simp [digits, bytes, toString, Nat.repr, List.asString]

theorem fmt_d_eq (v : Int) : fmt_d none v = bytes (toString v) := by
  unfold fmt_d
  cases v with
  | ofNat n =>
    have h : ¬ Int.ofNat n < 0 := by simp
    rw [if_neg h]
    exact digits_eq n
  | negSucc n =>
    have h : Int.negSucc n < 0 := Int.negSucc_lt_zero n
    rw [if_pos h]
    have e : (-Int.negSucc n).toNat = n + 1 := by
      rw [Int.neg_negSucc]
      rfl
    rw [e, digits_eq]
    show _ = bytes ("-" ++ _)
    simp [bytes, toString, Nat.repr]

theorem try_solutions_args (cs : Bool) (a0 a1 : List Nat) (more : List (List Nat))
    (out : List Nat) :
    try_solutions cs (a0 :: a1 :: more) out =
      some (out ++ bytes "Testing with input: " ++ [fmt_c (loadChar cs (byteAt0 a1))]
        ++ bytes " (ASCII " ++ fmt_d none (loadChar cs (byteAt0 a1))
        ++ bytes ")\nTarget output: " ++ [fmt_c (loadChar cs (byteAt0 a1) - 32)]
        ++ bytes " (ASCII " ++ fmt_d none (loadChar cs (byteAt0 a1) - 32)
        ++ bytes ")\n%c: " ++ [fmt_c (loadChar cs (byteAt0 a1))] ++ bytes "\n", 0) := by
  simp [try_solutions, argc, int_sub_loadChar, printf, vfprintf, convert, pad, bytes]

theorem try_solutions_noargs (cs : Bool) (argv : List (List Nat)) (out : List Nat)
    (h : argc argv < 2) :
    try_solutions cs argv out =
      some (out ++ bytes "Usage: " ++ fmt_s none argv[0]? ++ bytes " <char>\n", 1) := by
  simp [try_solutions, h, printf, vfprintf, convert, pad, bytes]

theorem try_formats_args (cs : Bool) (a0 a1 : List Nat) (more : List (List Nat))
    (out : List Nat) :
    try_formats cs (a0 :: a1 :: more) out =
      some (out ++ bytes "Input: " ++ [fmt_c (loadChar cs (byteAt0 a1))]
        ++ bytes "\n%c: " ++ [fmt_c (loadChar cs (byteAt0 a1))]
        ++ bytes "\n%d: " ++ fmt_d none (loadChar cs (byteAt0 a1))
        ++ bytes "\nTarget: " ++ [fmt_c (loadChar cs (byteAt0 a1) - 32)] ++ bytes "\n", 0) := by
  simp [try_formats, argc, int_sub_loadChar, printf, vfprintf, convert, pad, bytes]

theorem try_formats_noargs (cs : Bool) (argv : List (List Nat)) (out : List Nat)
    (h : argc argv < 2) : try_formats cs argv out = some (out, 1) := by
  simp [try_formats, h]

theorem verify_args (cs : Bool) (a0 a1 : List Nat) (more : List (List Nat))
    (out : List Nat) :
    verify cs (a0 :: a1 :: more) out =
      some (out ++ bytes "argv[1] = " ++ cstr a1
        ++ bytes "\nargv[1][0] = " ++ [fmt_c (loadChar cs (byteAt0 a1))]
        ++ bytes "\nargv[1][0] as int = " ++ fmt_d none (loadChar cs (byteAt0 a1))
        ++ bytes "\n", 0) := by
  simp [verify, argc, printf, vfprintf, convert, pad, bytes, fmt_s]

theorem verify_noargs (cs : Bool) (argv : List (List Nat)) (out : List Nat)
    (h : argc argv < 2) : verify cs argv out = some (out ++ bytes "Need argument\n", 1) := by
  simp [verify, h, printf, vfprintf, bytes]

theorem debug_printf_eq (cs : Bool) (argv : List (List Nat)) (out : List Nat) :
    debug_printf cs argv out =
      some (out ++ bytes ("Testing character 'a' (ASCII 97):\n%c: a\n%d: 97\n%x: 61\n%o: 141\n"
        ++ "c-32 as char: A\nc-32 as int: 65\n"), 0) := by
  simp [debug_printf, intToChar_a, int_sub, printf, vfprintf, convert, pad, bytes, fmt_c,
    fmt_d, fmt_u, digits]
  decide

theorem experiment_eq (cs : Bool) (argv : List (List Nat)) (out : List Nat) :
    experiment cs argv out =
      some (out ++ bytes "Standard: a\nAs int: 97\nWith arithmetic: A\nTest format: a\n", 0) := by
  simp [experiment, intToChar_a, int_sub, printf, vfprintf, convert, pad, bytes, fmt_c,
    fmt_d, fmt_u, digits]
  decide

theorem test_arithmetic_eq (cs : Bool) (argv : List (List Nat)) (out : List Nat) :
    test_arithmetic cs argv out =
      some (out ++ bytes ("Original: a (97)\nWith width:     a\nWith precision: a\n"
        ++ "As char: a\nAs int: 97\nTarget: A (65)\n"), 0) := by
  simp [test_arithmetic, intToChar_a, int_sub, printf, vfprintf, convert, pad, bytes, fmt_c,
    fmt_d, fmt_u, digits]
  decide

theorem argv_of_two_le (argv : List (List Nat)) (h : 2 ≤ argc argv) :
    ∃ a0 a1 more, argv = a0 :: a1 :: more := by
  match argv, h with
  | a0 :: a1 :: more, _ => exact ⟨a0, a1, more, rfl⟩

/-! ## The report of a lowercase letter -/

/-- C1, as stated, fails on `try_formats`: run on the argument `z`, it writes
`Input: z`, `%c: z`, `%d: 122` and `Target: Z`; the derived ordinal 90 is
nowhere in its report. -/
theorem try_formats_z_no_derived_ordinal :
    try_formats true [bytes "./try_formats", bytes "z"] [] =
        some (bytes "Input: z\n%c: z\n%d: 122\nTarget: Z\n", 0)
      ∧ try_formats false [bytes "./try_formats", bytes "z"] [] =
        some (bytes "Input: z\n%c: z\n%d: 122\nTarget: Z\n", 0)
      ∧ ¬ (bytes "90" <:+: bytes "Input: z\n%c: z\n%d: 122\nTarget: Z\n") := by
  decide

/-- C1 (amended): for an argument whose first byte `x` is a lowercase letter
(97..122), `try_solutions` reports the derived character as the uppercase
letter at the same alphabet position, byte `65 + (x - 97)`, and the derived
ordinal as the decimal of `x - 32`; `try_formats` reports the same derived
character and prints no derived ordinal. -/
theorem lowercase_report (cs : Bool) (a0 a1 : List Nat) (more : List (List Nat))
    (out : List Nat) (x : Nat) (hx : byteAt0 a1 = x) (hlo : 97 ≤ x) (hhi : x ≤ 122) :
    try_solutions cs (a0 :: a1 :: more) out =
        some (out ++ bytes "Testing with input: " ++ [x] ++ bytes " (ASCII "
          ++ bytes (toString x) ++ bytes ")\nTarget output: " ++ [65 + (x - 97)]
          ++ bytes " (ASCII " ++ bytes (toString (x - 32)) ++ bytes ")\n%c: " ++ [x]
          ++ bytes "\n", 0)
      ∧ try_formats cs (a0 :: a1 :: more) out =
        some (out ++ bytes "Input: " ++ [x] ++ bytes "\n%c: " ++ [x] ++ bytes "\n%d: "
          ++ bytes (toString x) ++ bytes "\nTarget: " ++ [65 + (x - 97)] ++ bytes "\n", 0) := by
  have hc : loadChar cs x = (x : Int) := by
    unfold loadChar
    have : ¬ (128 ≤ x % 256) := by omega
    simp only [this, decide_False, Bool.and_false, Bool.false_eq_true, if_false]
    omega
  have h1 : fmt_c (x : Int) = x := by unfold fmt_c; omega
  have h2 : fmt_c ((x : Int) - 32) = 65 + (x - 97) := by unfold fmt_c; omega
  have h3 : toString (x : Int) = toString x := rfl
  have h4 : (x : Int) - 32 = ((x - 32 : Nat) : Int) := by omega
  have h5 : toString (((x - 32 : Nat) : Int)) = toString (x - 32) := rfl
  rw [try_solutions_args, try_formats_args, hx, hc, fmt_d_eq, fmt_d_eq, h1, h2, h3, h4, h5]
  exact ⟨rfl, rfl⟩

/-- Witness of `lowercase_report`: the argument `a` gives `A` (65). -/
theorem lowercase_report_witness :
    try_solutions true [bytes "./try_solutions", bytes "a"] [] =
        some (bytes "Testing with input: a (ASCII 97)\nTarget output: A (ASCII 65)\n%c: a\n", 0)
      ∧ try_formats true [bytes "./try_solutions", bytes "a"] [] =
        some (bytes "Input: a\n%c: a\n%d: 97\nTarget: A\n", 0) :=
  lowercase_report true (bytes "./try_solutions") (bytes "a") [] [] 97 (by decide) (by decide)
    (by decide)

/-! ## The missing argument -/

/-- C2, as stated, fails on `try_formats`: run without an argument it returns 1
and writes nothing at all, no usage message. -/
theorem try_formats_no_usage_message :
    try_formats true [bytes "./try_formats"] [] = some ([], 1)
      ∧ try_formats false [bytes "./try_formats"] [] = some ([], 1) := by
  decide

/-- C2 (amended): run with no argument (`argc < 2`), each of `try_solutions`,
`try_formats` and `verify` exits with status 1 and writes no report line;
`try_solutions` writes the usage line `Usage: <argv[0]> <char>` (with `(null)`
for a null `argv[0]`), `verify` writes `Need argument`, and `try_formats`
writes nothing. -/
theorem missing_argument (cs : Bool) (argv : List (List Nat)) (out : List Nat)
    (h : argc argv < 2) :
    try_solutions cs argv out =
        some (out ++ bytes "Usage: "
          ++ (match argv.head? with
              | none => bytes "(null)"
              | some a0 => cstr a0)
          ++ bytes " <char>\n", 1)
      ∧ verify cs argv out = some (out ++ bytes "Need argument\n", 1)
      ∧ try_formats cs argv out = some (out, 1) := by
  refine ⟨?_, verify_noargs cs argv out h, try_formats_noargs cs argv out h⟩
  rw [try_solutions_noargs cs argv out h]
  cases argv <;> simp [fmt_s]

/-- Witness of `missing_argument`: the command line of the program name alone. -/
theorem missing_argument_witness :
    try_solutions true [bytes "./prog"] [] = some (bytes "Usage: ./prog <char>\n", 1)
      ∧ verify true [bytes "./prog"] [] = some (bytes "Need argument\n", 1)
      ∧ try_formats true [bytes "./prog"] [] = some ([], 1) :=
  missing_argument true [bytes "./prog"] [] (by decide)

/-! ## The items of a report -/

/-- C3, as stated, fails on `try_formats`: run on the argument `5` (53), its
report holds the character `5`, the ordinal `53` and the derived character
(byte 21), and the derived ordinal `21` is nowhere in it. -/
theorem try_formats_5_three_items :
    try_formats true [bytes "./try_formats", bytes "5"] [] =
        some (bytes "Input: 5\n%c: 5\n%d: 53\nTarget: " ++ [21] ++ bytes "\n", 0)
      ∧ try_formats false [bytes "./try_formats", bytes "5"] [] =
        some (bytes "Input: 5\n%c: 5\n%d: 53\nTarget: " ++ [21] ++ bytes "\n", 0)
      ∧ ¬ (bytes "21" <:+: bytes "Input: 5\n%c: 5\n%d: 53\nTarget: " ++ [21] ++ bytes "\n") := by
  decide

/-- C3 (amended): for every supplied argument, with `c` the `char` value of its
first byte, the report of `try_solutions` holds all four items (`c` as a
character, `c` in decimal, `c - 32` as a character, `c - 32` in decimal); the
report of `try_formats` holds the first three and no decimal of `c - 32`. -/
theorem report_items (cs : Bool) (a0 a1 : List Nat) (more : List (List Nat))
    (out : List Nat) (c : Int) (hc : loadChar cs (byteAt0 a1) = c) :
    try_solutions cs (a0 :: a1 :: more) out =
        some (out ++ bytes "Testing with input: " ++ [(c % 256).toNat] ++ bytes " (ASCII "
          ++ bytes (toString c) ++ bytes ")\nTarget output: " ++ [((c - 32) % 256).toNat]
          ++ bytes " (ASCII " ++ bytes (toString (c - 32)) ++ bytes ")\n%c: "
          ++ [(c % 256).toNat] ++ bytes "\n", 0)
      ∧ try_formats cs (a0 :: a1 :: more) out =
        some (out ++ bytes "Input: " ++ [(c % 256).toNat] ++ bytes "\n%c: "
          ++ [(c % 256).toNat] ++ bytes "\n%d: " ++ bytes (toString c) ++ bytes "\nTarget: "
          ++ [((c - 32) % 256).toNat] ++ bytes "\n", 0) := by
  rw [try_solutions_args, try_formats_args, hc, fmt_d_eq, fmt_d_eq]
  exact ⟨rfl, rfl⟩

/-- Witness of `report_items`: the argument `q` (113), derived `Q` (81). -/
theorem report_items_witness :
    try_solutions false [bytes "./prog", bytes "q"] [] =
        some (bytes "Testing with input: q (ASCII 113)\nTarget output: Q (ASCII 81)\n%c: q\n", 0)
      ∧ try_formats false [bytes "./prog", bytes "q"] [] =
        some (bytes "Input: q\n%c: q\n%d: 113\nTarget: Q\n", 0) :=
  report_items false (bytes "./prog") (bytes "q") [] [] 113 (by decide)

/-! ## The subtraction -/

/-- C4, as stated, fails where plain `char` is signed (x86-64 Linux): for the
first byte 200, `try_solutions` reports the derived ordinal -88, which is not
200 - 32 = 168; the decimal 168 is nowhere in its report. -/
theorem signed_char_byte_200_derived_ordinal :
    try_solutions true [bytes "./try_solutions", [200]] [] =
        some (bytes "Testing with input: " ++ [200] ++ bytes " (ASCII -56)\nTarget output: "
          ++ [168] ++ bytes " (ASCII -88)\n%c: " ++ [200] ++ bytes "\n", 0)
      ∧ ¬ (bytes "168" <:+:
            bytes "Testing with input: " ++ [200] ++ bytes " (ASCII -56)\nTarget output: "
              ++ [168] ++ bytes " (ASCII -88)\n%c: " ++ [200] ++ bytes "\n") := by
  decide

/-- C4 (amended): for every first byte `b` in 0..255, the derived ordinal that
`try_solutions` reports is the input ordinal `n` it reports minus 32, a plain
`int` subtraction that never overflows, wraps or saturates: it is `b - 32`
when `b` is below 128 or plain `char` is unsigned, and `b - 288` when `b` is
128..255 and plain `char` is signed. The first byte 53 gives 21, and every
first byte below 32 gives a negative derived ordinal, written with a leading
minus sign. -/
theorem derived_ordinal (cs : Bool) (a0 a1 : List Nat) (more : List (List Nat))
    (out : List Nat) (b : Nat) (n : Int) (hb : byteAt0 a1 = b) (h256 : b < 256)
    (hn : n = if cs = true ∧ 128 ≤ b then (b : Int) - 256 else (b : Int)) :
    int_sub n 32 = some (n - 32)
      ∧ try_solutions cs (a0 :: a1 :: more) out =
        some (out ++ bytes "Testing with input: " ++ [b] ++ bytes " (ASCII "
          ++ bytes (toString n) ++ bytes ")\nTarget output: " ++ [((n - 32) % 256).toNat]
          ++ bytes " (ASCII " ++ bytes (toString (n - 32)) ++ bytes ")\n%c: " ++ [b]
          ++ bytes "\n", 0)
      ∧ (n - 32 = if cs = true ∧ 128 ≤ b then (b : Int) - 288 else (b : Int) - 32)
      ∧ (b < 32 → n - 32 = (b : Int) - 32 ∧ n - 32 < 0
          ∧ (bytes (toString (n - 32))).head? = some 45)
      ∧ (b = 53 → bytes (toString (n - 32)) = bytes "21") := by
  have hc : loadChar cs b = n := by
    rw [hn]
    unfold loadChar
    rw [Nat.mod_eq_of_lt h256]
    cases cs <;> simp
  have h1 : fmt_c n = b := by
    rw [← hc, fmt_c_loadChar, Nat.mod_eq_of_lt h256]
  refine ⟨?_, ?_, ?_, ?_, ?_⟩
  · rw [← hc]
    exact int_sub_loadChar cs b
  · rw [try_solutions_args, hb, hc, fmt_d_eq, fmt_d_eq, h1]
    rfl
  · rw [hn]
    split <;> omega
  · intro hlt
    have e : n = (b : Int) := by
      rw [hn, if_neg (by omega)]
    have hneg : n - 32 < 0 := by omega
    refine ⟨by omega, hneg, ?_⟩
    rw [← fmt_d_eq]
    unfold fmt_d
    rw [if_pos hneg]
    rfl
  · intro h53
    have e : n = 53 := by
      rw [hn, if_neg (by omega), h53]
      rfl
    rw [e]
    decide

/-- Witness of `derived_ordinal`: the first byte 16 gives the derived ordinal
-16 (and the derived character byte 240). -/
theorem derived_ordinal_witness :
    int_sub 16 32 = some (16 - 32)
      ∧ try_solutions true [bytes "./prog", [16]] [] =
        some (bytes "Testing with input: " ++ [16] ++ bytes " (ASCII 16)\nTarget output: "
          ++ [240] ++ bytes " (ASCII -16)\n%c: " ++ [16] ++ bytes "\n", 0)
      ∧ ((16 : Int) - 32 = if true = true ∧ 128 ≤ 16 then ((16 : Nat) : Int) - 288
          else ((16 : Nat) : Int) - 32)
      ∧ (16 < 32 → (16 : Int) - 32 = ((16 : Nat) : Int) - 32 ∧ (16 : Int) - 32 < 0
          ∧ (bytes (toString ((16 : Int) - 32))).head? = some 45)
      ∧ ((16 : Nat) = 53 → bytes (toString ((16 : Int) - 32)) = bytes "21") :=
  derived_ordinal true (bytes "./prog") [16] [] [] 16 16 (by decide) (by decide) (by decide)

/-! ## Exit status -/

/-- C5: `try_solutions`, `try_formats` and `verify` terminate with status 1 when
the argument is missing (`argc < 2`) and with status 0 on every other command
line, whatever the argument holds (the empty string too); `debug_printf`,
`experiment` and `test_arithmetic` terminate with status 0 on every command
line. -/
theorem exit_status (cs : Bool) (argv : List (List Nat)) (out : List Nat) :
    (try_solutions cs argv out).map Prod.snd = some (if argc argv < 2 then 1 else 0)
      ∧ (try_formats cs argv out).map Prod.snd = some (if argc argv < 2 then 1 else 0)
      ∧ (verify cs argv out).map Prod.snd = some (if argc argv < 2 then 1 else 0)
      ∧ (debug_printf cs argv out).map Prod.snd = some 0
      ∧ (experiment cs argv out).map Prod.snd = some 0
      ∧ (test_arithmetic cs argv out).map Prod.snd = some 0 := by
  refine ⟨?_, ?_, ?_, ?_, ?_, ?_⟩
  · by_cases h : argc argv < 2
    · rw [try_solutions_noargs cs argv out h, if_pos h]
      rfl
    · obtain ⟨a0, a1, more, rfl⟩ := argv_of_two_le argv (by omega)
      rw [try_solutions_args, if_neg h]
      rfl
  · by_cases h : argc argv < 2
    · rw [try_formats_noargs cs argv out h, if_pos h]
      rfl
    · obtain ⟨a0, a1, more, rfl⟩ := argv_of_two_le argv (by omega)
      rw [try_formats_args, if_neg h]
      rfl
  · by_cases h : argc argv < 2
    · rw [verify_noargs cs argv out h, if_pos h]
      rfl
    · obtain ⟨a0, a1, more, rfl⟩ := argv_of_two_le argv (by omega)
      rw [verify_args, if_neg h]
      rfl
  · rw [debug_printf_eq]
    rfl
  · rw [experiment_eq]
    rfl
  · rw [test_arithmetic_eq]
    rfl

/-! ## The fixed-literal programs -/

/-- C6, as stated, fails on `experiment`: its report shows `a`, `97` and `A`,
and the derived ordinal 65 is nowhere in it. -/
theorem experiment_no_derived_ordinal :
    experiment true [bytes "./experiment", bytes "z"] [] =
        some (bytes "Standard: a\nAs int: 97\nWith arithmetic: A\nTest format: a\n", 0)
      ∧ experiment false [bytes "./experiment", bytes "z"] [] =
        some (bytes "Standard: a\nAs int: 97\nWith arithmetic: A\nTest format: a\n", 0)
      ∧ ¬ (bytes "65" <:+:
            bytes "Standard: a\nAs int: 97\nWith arithmetic: A\nTest format: a\n") := by
  decide

/-- C6 (amended): on every command line `debug_printf`, `experiment` and
`test_arithmetic` report the input byte `a`: `debug_printf` and
`test_arithmetic` show `a`, `97`, `A` and `65`; `experiment` shows `a`, `97`
and `A`, without the ordinal 65. -/
theorem fixed_literal_report (cs : Bool) (argv : List (List Nat)) (out : List Nat) :
    debug_printf cs argv out =
        some (out ++ bytes ("Testing character 'a' (ASCII 97):\n%c: a\n%d: 97\n%x: 61\n"
          ++ "%o: 141\nc-32 as char: A\nc-32 as int: 65\n"), 0)
      ∧ test_arithmetic cs argv out =
        some (out ++ bytes ("Original: a (97)\nWith width:     a\nWith precision: a\n"
          ++ "As char: a\nAs int: 97\nTarget: A (65)\n"), 0)
      ∧ experiment cs argv out =
        some (out ++ bytes "Standard: a\nAs int: 97\nWith arithmetic: A\nTest format: a\n",
          0) :=
  ⟨debug_printf_eq cs argv out, test_arithmetic_eq cs argv out, experiment_eq cs argv out⟩

/-! ## Determinism -/

/-- C7: for every program of the repository, the bytes a run appends to
standard output and its exit status are fixed by the command line (and the
signedness of `char` the program was compiled for): they do not depend on what
the stream held before, the only state a run passes on. -/
theorem run_deterministic (p : Program) (cs : Bool) (argv : List (List Nat)) :
    ∃ (report : List Nat) (status : Int),
      ∀ out : List Nat, run p cs argv out = some (out ++ report, status) := by
  cases p
  · by_cases h : argc argv < 2
    · exact ⟨_, _, fun out => by
        rw [run, try_solutions_noargs cs argv out h, List.append_assoc, List.append_assoc]⟩
    · obtain ⟨a0, a1, more, rfl⟩ := argv_of_two_le argv (by omega)
      exact ⟨_, _, fun out => by
        rw [run, try_solutions_args]
        simp only [List.append_assoc]
        rfl⟩
  · by_cases h : argc argv < 2
    · exact ⟨[], _, fun out => by
        rw [run, try_formats_noargs cs argv out h, List.append_nil]⟩
    · obtain ⟨a0, a1, more, rfl⟩ := argv_of_two_le argv (by omega)
      exact ⟨_, _, fun out => by
        rw [run, try_formats_args]
        simp only [List.append_assoc]
        rfl⟩
  · by_cases h : argc argv < 2
    · exact ⟨_, _, fun out => by rw [run, verify_noargs cs argv out h]⟩
    · obtain ⟨a0, a1, more, rfl⟩ := argv_of_two_le argv (by omega)
      exact ⟨_, _, fun out => by
        rw [run, verify_args]
        simp only [List.append_assoc]
        rfl⟩
  · exact ⟨_, _, fun out => by rw [run, debug_printf_eq]⟩
  · exact ⟨_, _, fun out => by rw [run, experiment_eq]⟩
  · exact ⟨_, _, fun out => by rw [run, test_arithmetic_eq]⟩

/-! ## The input ordinal -/

/-- C8, as stated, fails where plain `char` is signed (x86-64 Linux): for the
first byte 200, `try_solutions` reports the input ordinal -56, not 200, and
`verify` does the same. -/
theorem signed_char_byte_200 :
    try_solutions true [bytes "./try_solutions", [200]] [] =
        some (bytes "Testing with input: " ++ [200] ++ bytes " (ASCII -56)\nTarget output: "
          ++ [168] ++ bytes " (ASCII -88)\n%c: " ++ [200] ++ bytes "\n", 0)
      ∧ verify true [bytes "./verify", [200]] [] =
        some (bytes "argv[1] = " ++ [200] ++ bytes "\nargv[1][0] = " ++ [200]
          ++ bytes "\nargv[1][0] as int = -56\n", 0) := by
  decide

/-- C8 (amended): for a first byte `b` in 0..255, the input ordinal reported by
`try_solutions`, `try_formats` and `verify` is `b` itself when `b` is below 128
or plain `char` is unsigned, and `b - 256` (negative) when `b` is 128..255 and
plain `char` is signed. -/
theorem input_ordinal (cs : Bool) (a0 a1 : List Nat) (more : List (List Nat))
    (out : List Nat) (b : Nat) (n : Int) (hb : byteAt0 a1 = b) (h256 : b < 256)
    (hn : n = if cs = true ∧ 128 ≤ b then (b : Int) - 256 else (b : Int)) :
    try_solutions cs (a0 :: a1 :: more) out =
        some (out ++ bytes "Testing with input: " ++ [b] ++ bytes " (ASCII "
          ++ bytes (toString n) ++ bytes ")\nTarget output: " ++ [((n - 32) % 256).toNat]
          ++ bytes " (ASCII " ++ bytes (toString (n - 32)) ++ bytes ")\n%c: " ++ [b]
          ++ bytes "\n", 0)
      ∧ try_formats cs (a0 :: a1 :: more) out =
        some (out ++ bytes "Input: " ++ [b] ++ bytes "\n%c: " ++ [b] ++ bytes "\n%d: "
          ++ bytes (toString n) ++ bytes "\nTarget: " ++ [((n - 32) % 256).toNat]
          ++ bytes "\n", 0)
      ∧ verify cs (a0 :: a1 :: more) out =
        some (out ++ bytes "argv[1] = " ++ cstr a1 ++ bytes "\nargv[1][0] = " ++ [b]
          ++ bytes "\nargv[1][0] as int = " ++ bytes (toString n) ++ bytes "\n", 0) := by
  have hc : loadChar cs b = n := by
    rw [hn]
    unfold loadChar
    rw [Nat.mod_eq_of_lt h256]
    cases cs <;> simp
  have h1 : fmt_c n = b := by
    rw [← hc, fmt_c_loadChar, Nat.mod_eq_of_lt h256]
  rw [try_solutions_args, try_formats_args, verify_args, hb, hc, fmt_d_eq, fmt_d_eq, h1]
  exact ⟨rfl, rfl, rfl⟩

/-- Witness of `input_ordinal`: the first byte 200 where plain `char` is
unsigned is reported as 200. -/
theorem input_ordinal_witness :
    try_solutions false [bytes "./prog", [200, 33]] [] =
        some (bytes "Testing with input: " ++ [200] ++ bytes " (ASCII 200)\nTarget output: "
          ++ [168] ++ bytes " (ASCII 168)\n%c: " ++ [200] ++ bytes "\n", 0)
      ∧ try_formats false [bytes "./prog", [200, 33]] [] =
        some (bytes "Input: " ++ [200] ++ bytes "\n%c: " ++ [200] ++ bytes "\n%d: 200\nTarget: "
          ++ [168] ++ bytes "\n", 0)
      ∧ verify false [bytes "./prog", [200, 33]] [] =
        some (bytes "argv[1] = " ++ [200, 33] ++ bytes "\nargv[1][0] = " ++ [200]
          ++ bytes "\nargv[1][0] as int = 200\n", 0) :=
  input_ordinal false (bytes "./prog") [200, 33] [] [] 200 200 (by decide) (by decide)
    (by decide)

/-! ## Only the first byte is read -/

/-- C9: on two command lines that both supply an argument, when the two
arguments start with the same byte (the NUL terminator for an empty argument),
`try_solutions` gives the same output and exit status on both, and so does
`try_formats`, whatever the rest of the argument, the program name and the
further arguments are. -/
theorem first_byte_only (cs : Bool) (argv argv2 : List (List Nat)) (out : List Nat)
    (a1 b1 : List Nat) (h1 : argv[1]? = some a1) (h2 : argv2[1]? = some b1)
    (hb : byteAt0 a1 = byteAt0 b1) :
    try_solutions cs argv out = try_solutions cs argv2 out
      ∧ try_formats cs argv out = try_formats cs argv2 out := by
  match argv, h1, argv2, h2 with
  | _ :: x :: _, h1, _ :: y :: _, h2 =>
    simp only [List.getElem?_cons_succ, List.getElem?_cons_zero, Option.some.injEq] at h1 h2
    subst h1 h2
    rw [try_solutions_args, try_solutions_args, try_formats_args, try_formats_args, hb]
    exact ⟨rfl, rfl⟩

/-- Witness of `first_byte_only`: `./a abc` against `/bin/b aZ more`. -/
theorem first_byte_only_witness :
    try_solutions true [bytes "./a", bytes "abc"] []
        = try_solutions true [bytes "/bin/b", bytes "aZ", bytes "more"] []
      ∧ try_formats true [bytes "./a", bytes "abc"] []
        = try_formats true [bytes "/bin/b", bytes "aZ", bytes "more"] [] :=
  first_byte_only true [bytes "./a", bytes "abc"] [bytes "/bin/b", bytes "aZ", bytes "more"] []
    (bytes "abc") (bytes "aZ") (by decide) (by decide) (by decide)

/-! ## The derived character -/

/-- C10: for every argument, with `c` the `char` value of its first byte, the
`%c` rendering of `c - 32` in `try_solutions` and in `try_formats` is the one
byte `(c - 32) mod 256`, which is `c - 32` when `c ≥ 32` and `c + 224` when
`c < 32`. -/
theorem derived_character_byte (cs : Bool) (a0 a1 : List Nat) (more : List (List Nat))
    (out : List Nat) (c d : Int) (hc : loadChar cs (byteAt0 a1) = c)
    (hd : d = if 32 ≤ c then c - 32 else c + 224) :
    (0 ≤ d ∧ d < 256 ∧ d = (c - 32) % 256)
      ∧ try_solutions cs (a0 :: a1 :: more) out =
        some (out ++ bytes "Testing with input: " ++ [(c % 256).toNat] ++ bytes " (ASCII "
          ++ bytes (toString c) ++ bytes ")\nTarget output: " ++ [d.toNat]
          ++ bytes " (ASCII " ++ bytes (toString (c - 32)) ++ bytes ")\n%c: "
          ++ [(c % 256).toNat] ++ bytes "\n", 0)
      ∧ try_formats cs (a0 :: a1 :: more) out =
        some (out ++ bytes "Input: " ++ [(c % 256).toNat] ++ bytes "\n%c: "
          ++ [(c % 256).toNat] ++ bytes "\n%d: " ++ bytes (toString c) ++ bytes "\nTarget: "
          ++ [d.toNat] ++ bytes "\n", 0) := by
  have hr := loadChar_range cs (byteAt0 a1)
  rw [hc] at hr
  have hd2 : d = (c - 32) % 256 := by
    rw [hd]
    split <;> omega
  refine ⟨⟨by omega, by omega, hd2⟩, ?_, ?_⟩
  · rw [try_solutions_args, hc, fmt_d_eq, fmt_d_eq, hd2]
    rfl
  · rw [try_formats_args, hc, fmt_d_eq, hd2]
    rfl

/-- Witness of `derived_character_byte`: the first byte 16 renders the derived
character as byte 240. -/
theorem derived_character_byte_witness :
    (0 ≤ (240 : Int) ∧ (240 : Int) < 256 ∧ (240 : Int) = (16 - 32) % 256)
      ∧ try_solutions true [bytes "./prog", [16]] [] =
        some (bytes "Testing with input: " ++ [16] ++ bytes " (ASCII 16)\nTarget output: "
          ++ [240] ++ bytes " (ASCII -16)\n%c: " ++ [16] ++ bytes "\n", 0)
      ∧ try_formats true [bytes "./prog", [16]] [] =
        some (bytes "Input: " ++ [16] ++ bytes "\n%c: " ++ [16] ++ bytes "\n%d: 16\nTarget: "
          ++ [240] ++ bytes "\n", 0) :=
  derived_character_byte true (bytes "./prog") [16] [] [] 16 240 (by decide) (by decide)

end BsidesCtf
